import Mathlib

/-!
Verification of the camera application in src/Camera.py against its
specification. The embedding models the two classes of the source:

* VideoRecorder (a QThread): its run method opens a video writer, sets the
  is_recording flag, emits recording_started, loops reading frames from the
  shared capture handle and writing each successfully read frame, and on
  observing the cleared flag releases the writer and emits recording_stopped
  with the temporary file name; its stop method clears the flag.

* CameraApp (the controller): update_frame (preview tick), save_image
  (photo capture), toggle_video_recording / start_video_recording /
  stop_video_recording, on_recording_started / on_recording_stopped
  (signal handlers), and closeEvent (shutdown).

The worker loop is modelled as a trace of atomic actions parametrised by the
sequence of frame-read results the environment delivers while the flag is
observed set; cross-thread signal delivery is modelled by an explicit queue
in a small transition system. Machine-level concerns (Qt internals, pixel
buffers of the real device) are abstracted, but every branch of the Python
code is kept.
-/

namespace CameraPy

/-- One captured frame: rows of BGR colour triples, as delivered by the
OpenCV capture handle. -/
structure Frame where
  rows : List (List (Nat × Nat × Nat))
deriving DecidableEq, Repr

/-- The capture device handle (cv.VideoCapture): its reported frame
dimensions and whether release() has been called on it. -/
structure Capture where
  released : Bool
  width : Nat
  height : Nat
deriving DecidableEq, Repr

/-- Reading a frame: cap.read() returns (ret, frame); a released handle
always fails, otherwise the environment decides whether a frame arrives. -/
def Capture.read (c : Capture) (env : Option Frame) : Option Frame :=
  if c.released then none else env

/-- cap.release(): marks the handle released. -/
def Capture.release (c : Capture) : Capture :=
  { c with released := true }

/-- The encoder sink (cv.VideoWriter): whether it actually opened, its fixed
codec tag, frame rate and dimensions, and the frames serialised so far. -/
structure VideoWriter where
  opened : Bool
  fourcc : String
  fps : Nat
  width : Nat
  height : Nat
  frames : List Frame
deriving DecidableEq, Repr

/-- out.write(frame): an OpenCV writer that failed to open silently drops
the frame; an opened writer appends it. -/
def VideoWriter.write (w : VideoWriter) (f : Frame) : VideoWriter :=
  if w.opened then { w with frames := w.frames ++ [f] } else w

/-- The two Qt signals a VideoRecorder can emit. This type is exhaustive:
the source declares recording_started and recording_stopped and nothing
else, so the worker has no error signal at all. -/
inductive Event where
  | recording_started : Event
  | recording_stopped (path : String) : Event
deriving DecidableEq, Repr

/-- The VideoRecorder object as the controller sees it: the is_recording
flag and the temporary file name fixed in the constructor. -/
structure VideoRecorder where
  is_recording : Bool
  temp_file_name : String
deriving DecidableEq, Repr

/-- VideoRecorder.__init__: the flag starts false and the temporary file
name is derived from the timestamp at construction time. -/
def VideoRecorder.init (ts : String) : VideoRecorder :=
  { is_recording := false
    temp_file_name := "Recorder_" ++ ts ++ ".avi" }

/-- VideoRecorder.stop: clears the flag, nothing else. -/
def VideoRecorder.stop (r : VideoRecorder) : VideoRecorder :=
  { r with is_recording := false }

/-- Atomic actions performed by VideoRecorder.run, in program order. -/
inductive WAct where
  | openWriter (ok : Bool) (fourcc : String) (fps w h : Nat) : WAct
  | setFlag (v : Bool) : WAct
  | checkFlag (v : Bool) : WAct
  | readFrame (r : Option Frame) : WAct
  | writeFrame (f : Frame) : WAct
  | releaseWriter : WAct
  | emit (e : Event) : WAct
deriving DecidableEq, Repr

/-- The while-loop of run: each iteration first observes the flag; while it
is observed set, the iteration reads a frame and writes it when the read
succeeded; the first observation of the cleared flag exits the loop. The
argument lists the read results delivered before the flag is observed
cleared (the point at which stop lands is chosen by the environment), so the
flag is consulted exactly once per iteration, never inside a read. -/
def loopTrace : List (Option Frame) → List WAct
  | [] => [WAct.checkFlag false]
  | r :: rs =>
      WAct.checkFlag true :: WAct.readFrame r ::
        ((match r with
          | some f => [WAct.writeFrame f]
          | none => []) ++ loopTrace rs)

/-- VideoRecorder.run as a trace: query the capture dimensions and open the
writer with the fixed XVID codec at 30 fps, set the flag, emit
recording_started, run the loop, release the writer, emit recording_stopped
with the temporary file name. The source never tests whether the writer
opened, so the trace is the same whether ok is true or false. -/
def runTrace (r : VideoRecorder) (ok : Bool) (capW capH : Nat)
    (reads : List (Option Frame)) : List WAct :=
  WAct.openWriter ok "XVID" 30 capW capH ::
    WAct.setFlag true ::
    WAct.emit Event.recording_started ::
    (loopTrace reads ++
      [WAct.releaseWriter, WAct.emit (Event.recording_stopped r.temp_file_name)])

/-- The frames a trace hands to the writer. -/
def writesOf (t : List WAct) : List Frame :=
  t.filterMap fun a =>
    match a with
    | WAct.writeFrame f => some f
    | _ => none

/-- The events a trace emits, in order. -/
def eventsOf (t : List WAct) : List Event :=
  t.filterMap fun a =>
    match a with
    | WAct.emit e => some e
    | _ => none

/-- Replaying a trace against a writer state. -/
def applyWriter (w : VideoWriter) (a : WAct) : VideoWriter :=
  match a with
  | WAct.writeFrame f => w.write f
  | _ => w

/-- The writer state after a run with the given open outcome, dimensions and
trace: the writer the run constructed, with every write of the trace
replayed onto it. -/
def writerAfter (ok : Bool) (capW capH : Nat) (t : List WAct) : VideoWriter :=
  t.foldl applyWriter
    { opened := ok, fourcc := "XVID", fps := 30,
      width := capW, height := capH, frames := [] }

/-- Whether an action is a flag observation. -/
def isCheck : WAct → Bool
  | WAct.checkFlag _ => true
  | _ => false

/-- os.path.join for a directory and a bare file name. -/
def pathJoin (d name : String) : String := d ++ "/" ++ name

/-- cv.cvtColor(frame, cv.COLOR_BGR2RGB): reorder each colour triple. -/
def cvtBGR2RGB (f : Frame) : Frame :=
  { rows := f.rows.map fun row => row.map fun p => (p.2.2, p.2.1, p.1) }

/-- cv.flip(frame, 1): mirror horizontally, reversing each row. -/
def flipH (f : Frame) : Frame :=
  { rows := f.rows.map List.reverse }

/-- CameraApp.update_frame: one preview tick. On a successful read the frame
is colour-converted and mirrored and becomes the new displayed image; on a
failed read nothing happens and the tick ends (the next tick simply reads
again, there is no retry state). -/
def update_frame (read : Option Frame) : Option Frame :=
  match read with
  | some frame => some (flipH (cvtBGR2RGB frame))
  | none => none

/-- CameraApp.save_image: read one frame; only on success open the directory
dialog; only when a directory comes back, write the frame once under a
timestamp-derived name inside it. Returns the list of image files written
(path and frame) and whether the dialog was shown. -/
def save_image (read : Option Frame) (save_dir : Option String)
    (ts : String) : List (String × Frame) × Bool :=
  match read with
  | some frame =>
      match save_dir with
      | some d =>
          ([(pathJoin d ("capture_" ++ ts ++ ".jpg"), frame)], true)
      | none => ([], true)
  | none => ([], false)

/-- The controller state the claims need: the capture handle, how often
release() has been called on it, and the video_thread reference. -/
structure CameraApp where
  cap : Capture
  cap_release_count : Nat
  video_thread : Option VideoRecorder
deriving DecidableEq, Repr

/-- Which branch toggle_video_recording took. -/
inductive ToggleBranch where
  | start : ToggleBranch
  | stop : ToggleBranch
deriving DecidableEq, Repr

/-- CameraApp.start_video_recording: install a fresh VideoRecorder built
from the current timestamp and start its thread (run begins asynchronously,
so the new object still has its flag clear here). -/
def start_video_recording (app : CameraApp) (ts : String) : CameraApp :=
  { app with video_thread := some (VideoRecorder.init ts) }

/-- CameraApp.stop_video_recording: when a worker reference exists, clear
its flag and join its thread; the reference itself is kept. -/
def stop_video_recording (app : CameraApp) : CameraApp :=
  match app.video_thread with
  | some r => { app with video_thread := some r.stop }
  | none => app

/-- CameraApp.toggle_video_recording: start a new session when the worker
reference is null or its flag is clear, otherwise stop the current one. -/
def toggle_video_recording (app : CameraApp) (ts : String) :
    CameraApp × ToggleBranch :=
  match app.video_thread with
  | none => (start_video_recording app ts, ToggleBranch.start)
  | some r =>
      if r.is_recording then (stop_video_recording app, ToggleBranch.stop)
      else (start_video_recording app ts, ToggleBranch.start)

/-- Atomic actions of the on_recording_stopped handler, in program order. -/
inductive UAct where
  | setBtnText (s : String) : UAct
  | promptDirectory (res : Option String) : UAct
  | renameFile (src dst : String) : UAct
  | showMessage (title msg : String) : UAct
  | clearThread : UAct
deriving DecidableEq, Repr

/-- CameraApp.on_recording_stopped: reset the button text, open the
directory dialog; when a directory comes back, attempt os.rename of the
temporary file into it. os.rename raises on failure and nothing in the
handler catches, so on a failed rename the remaining statements — the
message box and the clearing assignment — never run; the returned flag
records whether the handler aborted on such an exception. -/
def on_recording_stopped (temp : String) (save_dir : Option String)
    (rename_ok : Bool) : List UAct × Bool :=
  let pre := [UAct.setBtnText "Record Video", UAct.promptDirectory save_dir]
  match save_dir with
  | some d =>
      let final := pathJoin d temp
      if rename_ok then
        (pre ++ [UAct.renameFile temp final,
                 UAct.showMessage "Video Saved" ("Video saved to: " ++ final),
                 UAct.clearThread], false)
      else
        (pre ++ [UAct.renameFile temp final], true)
  | none => (pre ++ [UAct.clearThread], false)

/-- Atomic actions of closeEvent, with the own actions of the worker while it is
being drained and joined embedded in order. -/
inductive CAct where
  | releaseCap : CAct
  | workerStop : CAct
  | workerAct (a : WAct) : CAct
  | joined : CAct
deriving DecidableEq, Repr

/-- Iterations the still-running loop performs between cap.release() and
stop(): each observes the still-set flag and reads through the released
capture handle; a successful read would be written, a failed one skipped. -/
def drainIters (cap : Capture) : List (Option Frame) → List CAct
  | [] => []
  | env :: rest =>
      CAct.workerAct (WAct.checkFlag true) ::
        CAct.workerAct (WAct.readFrame (cap.read env)) ::
        ((match cap.read env with
          | some f => [CAct.workerAct (WAct.writeFrame f)]
          | none => []) ++ drainIters cap rest)

/-- CameraApp.closeEvent: release the capture handle first; then, when a
worker reference exists, clear its flag and block until run finishes. The
envReads are the frames the device would have produced for the loop
iterations that still run between the release and the stop; inflight tells
whether one iteration was already past its flag check when the flag was
cleared, in which case its read (through the released handle) completes and
only then is the cleared flag observed. Returns the final controller state
and the full action trace of the call. -/
def closeEvent (app : CameraApp) (envReads : List (Option Frame))
    (inflight : Option (Option Frame)) : CameraApp × List CAct :=
  let cap := app.cap.release
  match app.video_thread with
  | none =>
      ({ app with cap := cap, cap_release_count := app.cap_release_count + 1 },
       [CAct.releaseCap])
  | some r =>
      ({ app with cap := cap, cap_release_count := app.cap_release_count + 1,
                  video_thread := some r.stop },
       CAct.releaseCap ::
         (drainIters cap envReads ++
           (CAct.workerStop ::
             ((match inflight with
               | some env =>
                   CAct.workerAct (WAct.readFrame (cap.read env)) ::
                     (match cap.read env with
                      | some f => [CAct.workerAct (WAct.writeFrame f)]
                      | none => [])
               | none => []) ++
              [CAct.workerAct (WAct.checkFlag false),
               CAct.workerAct WAct.releaseWriter,
               CAct.workerAct (WAct.emit (Event.recording_stopped r.temp_file_name)),
               CAct.joined]))))

/-- Program counter of the worker thread across one recording session (the
VideoRecorder object is created per session and never reused): before the
flag assignment of run, between that assignment and the started emit,
inside the loop, and after the stopped emit. -/
inductive WPC where
  | notStarted : WPC
  | flagSet : WPC
  | running : WPC
  | finished : WPC
deriving DecidableEq, Repr

/-- Joint state of the worker thread and the UI for one recording session:
the shared is_recording flag, the record-button label, and the queue of
signals emitted by the worker thread but not yet delivered to the UI thread
(the two signals cross a thread boundary, so Qt queues them). -/
structure UiSys where
  wpc : WPC
  is_recording : Bool
  btnText : String
  pending : List Event
  temp : String
deriving DecidableEq, Repr

/-- Interleaved steps of one recording session, one per statement of the
source that touches the flag, the label or the signal queue — in particular
the flag assignment and the adjacent signal emit are separate steps, so the
states between them are reachable. setFlagStep is the is_recording
assignment at the head of run; emitStartedStep is the following
recording_started emit; uiStop is the stop method clearing the flag (its
caller guards on the flag being observed set — possible both while the
worker is inside the loop and while it sits between the assignment and the
emit); finishStep is the loop observing the cleared flag, releasing the
writer and emitting recording_stopped; deliverStarted and deliverStopped
are the queued signal deliveries running on_recording_started and the first
statement of on_recording_stopped. Blocking of the UI thread inside wait is
not modelled; the machine allows a superset of the real interleavings. -/
inductive UiStep : UiSys → UiSys → Prop where
  | setFlagStep (s : UiSys) (h : s.wpc = WPC.notStarted) :
      UiStep s { s with wpc := WPC.flagSet, is_recording := true }
  | emitStartedStep (s : UiSys) (h : s.wpc = WPC.flagSet) :
      UiStep s { s with wpc := WPC.running,
                        pending := s.pending ++ [Event.recording_started] }
  | uiStop (s : UiSys) (hrec : s.is_recording = true) :
      UiStep s { s with is_recording := false }
  | finishStep (s : UiSys) (h : s.wpc = WPC.running)
      (hrec : s.is_recording = false) :
      UiStep s { s with wpc := WPC.finished,
                        pending := s.pending ++ [Event.recording_stopped s.temp] }
  | deliverStarted (s : UiSys) (rest : List Event)
      (h : s.pending = Event.recording_started :: rest) :
      UiStep s { s with pending := rest, btnText := "Stop Recording" }
  | deliverStopped (s : UiSys) (p : String) (rest : List Event)
      (h : s.pending = Event.recording_stopped p :: rest) :
      UiStep s { s with pending := rest, btnText := "Record Video" }

/-- States reachable from the start of a session: worker thread not yet
scheduled, flag clear, button showing the record label, no queued signal. -/
inductive UiReach : UiSys → Prop where
  | init (temp : String) :
      UiReach { wpc := WPC.notStarted, is_recording := false,
                btnText := "Record Video", pending := [], temp := temp }
  | step (s t : UiSys) (hs : UiReach s) (st : UiStep s t) : UiReach t

/-- The inductive invariant of the session machine: an exhaustive list of
the reachable shapes, recording which queue contents accompany which
program-counter/label combination. While the worker sits between the flag
assignment and the started emit, and while it is still in the loop, the
flag can be either value (the stop request can land at any time), so those
shapes do not constrain it. -/
def UiInv (s : UiSys) : Prop :=
  (s.wpc = WPC.notStarted ∧ s.is_recording = false ∧
     s.btnText = "Record Video" ∧ s.pending = []) ∨
  (s.wpc = WPC.flagSet ∧ s.btnText = "Record Video" ∧ s.pending = []) ∨
  (s.wpc = WPC.running ∧
     ((s.btnText = "Record Video" ∧ s.pending = [Event.recording_started]) ∨
      (s.btnText = "Stop Recording" ∧ s.pending = []))) ∨
  (s.wpc = WPC.finished ∧ s.is_recording = false ∧
     ((s.btnText = "Record Video" ∧
         s.pending = [Event.recording_started, Event.recording_stopped s.temp]) ∨
      (s.btnText = "Stop Recording" ∧ s.pending = [Event.recording_stopped s.temp]) ∨
      (s.btnText = "Record Video" ∧ s.pending = [])))

/-! General lemmas about the worker loop trace. -/

/-- The frames the loop hands to the writer are exactly the successfully
read ones, in order. -/
theorem writesOf_loopTrace (reads : List (Option Frame)) :
    writesOf (loopTrace reads) = reads.filterMap id := by
  induction reads with
  | nil => rfl
  | cons r rs ih =>
      cases r with
      | some f => simp [loopTrace, writesOf, List.filterMap_cons] at ih ⊢; exact ih
      | none => simp [loopTrace, writesOf, List.filterMap_cons] at ih ⊢; exact ih

/-- The loop emits no signal. -/
theorem eventsOf_loopTrace (reads : List (Option Frame)) :
    eventsOf (loopTrace reads) = [] := by
  induction reads with
  | nil => rfl
  | cons r rs ih =>
      cases r with
      | some f => simp [loopTrace, eventsOf, List.filterMap_cons] at ih ⊢; exact ih
      | none => simp [loopTrace, eventsOf, List.filterMap_cons] at ih ⊢; exact ih

/-- The loop observes the set flag once per delivered read. -/
theorem count_checkTrue_loopTrace (reads : List (Option Frame)) :
    (loopTrace reads).count (WAct.checkFlag true) = reads.length := by
  induction reads with
  | nil => rfl
  | cons r rs ih =>
      cases r with
      | some f => simp [loopTrace, List.count_cons, ih]
      | none => simp [loopTrace, List.count_cons, ih]

/-- The loop observes the cleared flag exactly once, on exit. -/
theorem count_checkFalse_loopTrace (reads : List (Option Frame)) :
    (loopTrace reads).count (WAct.checkFlag false) = 1 := by
  induction reads with
  | nil => rfl
  | cons r rs ih =>
      cases r with
      | some f => simp [loopTrace, List.count_cons, ih]
      | none => simp [loopTrace, List.count_cons, ih]

/-- The loop observes the flag exactly once per iteration plus the final
exiting observation. -/
theorem countP_isCheck_loopTrace (reads : List (Option Frame)) :
    (loopTrace reads).countP (fun a => isCheck a) = reads.length + 1 := by
  induction reads with
  | nil => rfl
  | cons r rs ih =>
      cases r with
      | some f => simp [loopTrace, List.countP_cons, isCheck] at ih ⊢; omega
      | none => simp [loopTrace, List.countP_cons, isCheck] at ih ⊢; omega

/-- A writer that failed to open is left untouched by any replayed trace:
every write is silently dropped. -/
theorem foldl_applyWriter_unopened (t : List WAct) (w : VideoWriter)
    (h : w.opened = false) : t.foldl applyWriter w = w := by
  induction t generalizing w with
  | nil => rfl
  | cons a rest ih =>
      cases a with
      | writeFrame f =>
          simp only [List.foldl_cons, applyWriter, VideoWriter.write, h]
          exact ih w h
      | openWriter ok fourcc fps cw ch => exact ih w h
      | setFlag v => exact ih w h
      | checkFlag v => exact ih w h
      | readFrame r => exact ih w h
      | releaseWriter => exact ih w h
      | emit e => exact ih w h

/-- A successfully read frame is written by the very next action of the
trace: nothing — in particular no flag observation — comes between a read
that returned a frame and the write of that frame. Stated for the loop
followed by any tail that contains no successful read. -/
theorem loopTrace_read_succ (reads : List (Option Frame)) :
    ∀ (tail : List WAct),
      (∀ (j : Nat) (f : Frame), tail[j]? ≠ some (WAct.readFrame (some f))) →
      ∀ i (f : Frame),
        (loopTrace reads ++ tail)[i]? = some (WAct.readFrame (some f)) →
        (loopTrace reads ++ tail)[i + 1]? = some (WAct.writeFrame f) := by
  induction reads with
  | nil =>
      intro tail htail i f h
      have hshape : loopTrace ([] : List (Option Frame)) ++ tail =
          WAct.checkFlag false :: tail := by simp [loopTrace]
      rw [hshape] at h ⊢
      cases i with
      | zero => simp at h
      | succ j =>
          rw [List.getElem?_cons_succ] at h
          exact absurd h (htail j f)
  | cons r rs ih =>
      intro tail htail i f h
      cases r with
      | some f0 =>
          have hshape : loopTrace (some f0 :: rs) ++ tail =
              WAct.checkFlag true :: WAct.readFrame (some f0) ::
                WAct.writeFrame f0 :: (loopTrace rs ++ tail) := by
            simp [loopTrace]
          rw [hshape] at h ⊢
          cases i with
          | zero => simp at h
          | succ i1 =>
              cases i1 with
              | zero =>
                  simp at h
                  subst h
                  simp
              | succ i2 =>
                  cases i2 with
                  | zero => simp at h
                  | succ j =>
                      simp only [List.getElem?_cons_succ] at h ⊢
                      exact ih tail htail j f h
      | none =>
          have hshape : loopTrace (none :: rs) ++ tail =
              WAct.checkFlag true :: WAct.readFrame none ::
                (loopTrace rs ++ tail) := by
            simp [loopTrace]
          rw [hshape] at h ⊢
          cases i with
          | zero => simp at h
          | succ i1 =>
              cases i1 with
              | zero => simp at h
              | succ j =>
                  simp only [List.getElem?_cons_succ] at h ⊢
                  exact ih tail htail j f h

/-- A full run emits exactly the started signal and then the stopped signal
carrying the temporary file name, whatever the reads and however the writer
opened. -/
theorem eventsOf_runTrace (r : VideoRecorder) (ok : Bool) (capW capH : Nat)
    (reads : List (Option Frame)) :
    eventsOf (runTrace r ok capW capH reads) =
      [Event.recording_started, Event.recording_stopped r.temp_file_name] := by
  have h := eventsOf_loopTrace reads
  simp only [eventsOf] at h
  simp [runTrace, eventsOf, List.filterMap_cons, List.filterMap_append, h]

/-! Claim theorems. -/

/-- C1: a start request while the current worker reference is non-null and
its flag is set takes the stop branch and keeps the same session object
(only its flag is cleared), so no second concurrent session is created; the
start branch is taken exactly when the reference is null or the flag is
clear. -/
theorem toggle_never_starts_second_active_session (app : CameraApp) (ts : String) :
    ((toggle_video_recording app ts).2 = ToggleBranch.start ↔
      (app.video_thread = none ∨
        ∃ r, app.video_thread = some r ∧ r.is_recording = false)) ∧
    (∀ r, app.video_thread = some r → r.is_recording = true →
        (toggle_video_recording app ts).2 = ToggleBranch.stop ∧
        (toggle_video_recording app ts).1.video_thread = some r.stop) := by
  constructor
  · cases h : app.video_thread with
    | none => simp [toggle_video_recording, h]
    | some r =>
        cases hr : r.is_recording with
        | true => simp [toggle_video_recording, h, hr]
        | false =>
            simp only [toggle_video_recording, h, hr]
            simp [hr]
  · intro r h hr
    simp [toggle_video_recording, h, hr, stop_video_recording]

/-- Witness for C1 at a controller whose worker reference is non-null and
recording. -/
theorem toggle_never_starts_second_active_session_witness :
    (toggle_video_recording
        ⟨⟨false, 640, 480⟩, 0, some ⟨true, "Recorder_t.avi"⟩⟩ "20240101_000000").2 =
      ToggleBranch.stop ∧
    (toggle_video_recording
        ⟨⟨false, 640, 480⟩, 0, some ⟨true, "Recorder_t.avi"⟩⟩ "20240101_000000").1.video_thread =
      some (VideoRecorder.stop ⟨true, "Recorder_t.avi"⟩) :=
  (toggle_never_starts_second_active_session
      ⟨⟨false, 640, 480⟩, 0, some ⟨true, "Recorder_t.avi"⟩⟩ "20240101_000000").2
    ⟨true, "Recorder_t.avi"⟩ rfl rfl

/-- C2 counterexample: with the encoder sink failing to open, the worker
still sets its flag, emits recording_started and runs to the stopped signal
— the session is not aborted before Active and no error is emitted (the
event list of the whole run holds exactly the started and stopped signals,
and the Event type is exhaustive for the signals the source declares). -/
theorem encoder_open_failure_not_aborted_cx :
    WAct.setFlag true ∈
      runTrace (VideoRecorder.init "20240101_000000") false 640 480 [some ⟨[]⟩] ∧
    eventsOf (runTrace (VideoRecorder.init "20240101_000000") false 640 480 [some ⟨[]⟩]) =
      [Event.recording_started,
       Event.recording_stopped "Recorder_20240101_000000.avi"] := by
  constructor
  · simp [runTrace]
  · rw [eventsOf_runTrace]
    rfl

/-- C2 as amended: when the encoder sink fails to open, the worker does not
fail fast and emits no error — it sets its flag, emits the started signal
(so the button flips to the stop label rather than reverting), loops, and
emits the ordinary stopped signal; the only mitigation is that the unopened
writer silently drops every frame handed to it, so the sink holds no
frames. -/
theorem encoder_open_failure_behavior (ts : String) (capW capH : Nat)
    (reads : List (Option Frame)) :
    WAct.setFlag true ∈ runTrace (VideoRecorder.init ts) false capW capH reads ∧
    eventsOf (runTrace (VideoRecorder.init ts) false capW capH reads) =
      [Event.recording_started,
       Event.recording_stopped (VideoRecorder.init ts).temp_file_name] ∧
    (writerAfter false capW capH
        (runTrace (VideoRecorder.init ts) false capW capH reads)).frames = [] := by
  refine ⟨?_, ?_, ?_⟩
  · simp [runTrace]
  · exact eventsOf_runTrace _ false capW capH reads
  · unfold writerAfter
    rw [foldl_applyWriter_unopened _ _ rfl]

/-- C4: stopping is cooperative. In every run trace a read that returned a
frame is immediately followed by the write of that frame (so the in-flight
frame is appended and no flag observation or exit comes between them), reads
are atomic actions never interrupted by a flag observation, the flag is
observed exactly once per iteration plus the final exiting observation, the
writer receives exactly the successfully read frames, and the trace ends by
releasing the encoder sink and only then emitting the stopped signal with
the temporary file path. -/
theorem stop_is_cooperative (r : VideoRecorder) (ok : Bool) (capW capH : Nat)
    (reads : List (Option Frame)) :
    (∀ i (f : Frame),
        (runTrace r ok capW capH reads)[i]? = some (WAct.readFrame (some f)) →
        (runTrace r ok capW capH reads)[i + 1]? = some (WAct.writeFrame f)) ∧
    (runTrace r ok capW capH reads).countP (fun a => isCheck a) =
      reads.length + 1 ∧
    writesOf (runTrace r ok capW capH reads) = reads.filterMap id ∧
    (∃ pre, runTrace r ok capW capH reads =
        pre ++ [WAct.releaseWriter,
                WAct.emit (Event.recording_stopped r.temp_file_name)]) := by
  refine ⟨?_, ?_, ?_, ?_⟩
  · have htail : ∀ (j : Nat) (f : Frame),
        ([WAct.releaseWriter,
          WAct.emit (Event.recording_stopped r.temp_file_name)] : List WAct)[j]? ≠
          some (WAct.readFrame (some f)) := by
      intro j f
      cases j with
      | zero => simp
      | succ j1 =>
          cases j1 with
          | zero => simp
          | succ j2 => simp
    intro i f h
    have hshape : runTrace r ok capW capH reads =
        WAct.openWriter ok "XVID" 30 capW capH :: WAct.setFlag true ::
          WAct.emit Event.recording_started ::
          (loopTrace reads ++
            [WAct.releaseWriter,
             WAct.emit (Event.recording_stopped r.temp_file_name)]) := rfl
    rw [hshape] at h ⊢
    cases i with
    | zero => simp at h
    | succ i1 =>
        cases i1 with
        | zero => simp at h
        | succ i2 =>
            cases i2 with
            | zero => simp at h
            | succ j =>
                simp only [List.getElem?_cons_succ] at h ⊢
                exact loopTrace_read_succ reads _ htail j f h
  · have h := countP_isCheck_loopTrace reads
    simp [isCheck] at h
    simp [runTrace, List.countP_cons, List.countP_append, isCheck, h]
  · have hw := writesOf_loopTrace reads
    simp only [writesOf] at hw
    simp [runTrace, writesOf, List.filterMap_cons, List.filterMap_append, hw]
  · exact ⟨WAct.openWriter ok "XVID" 30 capW capH :: WAct.setFlag true ::
      WAct.emit Event.recording_started :: loopTrace reads, by simp [runTrace]⟩

/-- Witness for C4: in a concrete run with one successful read, the frame
read at position four is written at position five. -/
theorem stop_is_cooperative_witness :
    (runTrace (VideoRecorder.init "20240101_000000") true 640 480
        [some ⟨[]⟩])[5]? = some (WAct.writeFrame ⟨[]⟩) :=
  (stop_is_cooperative (VideoRecorder.init "20240101_000000") true 640 480
      [some ⟨[]⟩]).1 4 ⟨[]⟩ (by decide)

/-- C5: save_image with a successful read and a confirmed directory writes
exactly one file, named capture_ts.jpg inside that directory; with the
dialog cancelled it writes nothing though the dialog was shown; with a
failed read it writes nothing and never opens the dialog. -/
theorem save_image_exactly_one_file (read : Option Frame)
    (dir : Option String) (ts : String) :
    (∀ f d, read = some f → dir = some d →
        save_image read dir ts =
          ([(pathJoin d ("capture_" ++ ts ++ ".jpg"), f)], true)) ∧
    (∀ f, read = some f → dir = none → save_image read dir ts = ([], true)) ∧
    (read = none → save_image read dir ts = ([], false)) := by
  refine ⟨?_, ?_, ?_⟩
  · intro f d hf hd
    subst hf; subst hd; rfl
  · intro f hf hd
    subst hf; subst hd; rfl
  · intro hf
    subst hf; rfl

/-- Witness for C5 at a concrete frame, directory and timestamp. -/
theorem save_image_exactly_one_file_witness :
    save_image (some ⟨[]⟩) (some "pics") "20240101_000000" =
      ([(pathJoin "pics" ("capture_" ++ "20240101_000000" ++ ".jpg"), ⟨[]⟩)],
        true) :=
  (save_image_exactly_one_file (some ⟨[]⟩) (some "pics") "20240101_000000").1
    ⟨[]⟩ "pics" rfl rfl

/-- Dropping the failed reads of an all-failed read sequence leaves
nothing. -/
theorem filterMap_id_replicate_none (n : Nat) :
    (List.replicate n (none : Option Frame)).filterMap id = [] := by
  induction n with
  | zero => rfl
  | succ m ih => simp [List.replicate_succ, List.filterMap_cons, ih]

/-- C6: a run whose reads all fail writes nothing, observes the still-set
flag on every one of its iterations (staying Active throughout), observes
the cleared flag exactly once, and still ends by releasing the encoder sink
and emitting the stopped signal — the stop transitions cleanly to Idle; the
preview tick likewise does nothing on a failed read (and, being a pure
function of the current read, simply tries again on the next tick). -/
theorem failed_reads_are_skipped (n : Nat) (ts : String) (ok : Bool)
    (capW capH : Nat) :
    writesOf (runTrace (VideoRecorder.init ts) ok capW capH
        (List.replicate n none)) = [] ∧
    (runTrace (VideoRecorder.init ts) ok capW capH
        (List.replicate n none)).count (WAct.checkFlag true) = n ∧
    (runTrace (VideoRecorder.init ts) ok capW capH
        (List.replicate n none)).count (WAct.checkFlag false) = 1 ∧
    (∃ pre, runTrace (VideoRecorder.init ts) ok capW capH (List.replicate n none) =
        pre ++ [WAct.releaseWriter,
          WAct.emit (Event.recording_stopped
            (VideoRecorder.init ts).temp_file_name)]) ∧
    update_frame none = none := by
  refine ⟨?_, ?_, ?_, ?_, rfl⟩
  · have hw := writesOf_loopTrace (List.replicate n none)
    simp only [writesOf] at hw
    simp [runTrace, writesOf, List.filterMap_cons, List.filterMap_append, hw,
      filterMap_id_replicate_none]
  · have h := count_checkTrue_loopTrace (List.replicate n none)
    simp [runTrace, List.count_cons, List.count_append, h]
  · have h := count_checkFalse_loopTrace (List.replicate n none)
    simp [runTrace, List.count_cons, List.count_append, h]
  · exact ⟨WAct.openWriter ok "XVID" 30 capW capH :: WAct.setFlag true ::
      WAct.emit Event.recording_started :: loopTrace (List.replicate n none),
      by simp [runTrace]⟩

/-- C7 counterexample: when the directory is confirmed but the rename of
the temporary file raises, the handler aborts before its final statement,
so the worker reference is not cleared — the clearing action never occurs
in the handler trace. -/
theorem relocation_failure_skips_clear_cx :
    ((on_recording_stopped "Recorder_x.avi" (some "d") false).1).count
        UAct.clearThread = 0 ∧
    (on_recording_stopped "Recorder_x.avi" (some "d") false).2 = true := by
  decide

/-- C7 as amended: the handler clears the worker reference when the dialog
is cancelled (in which case it performs no rename and no delete, leaving the
temporary file at its working-directory location) and when the relocation
succeeds; but when the relocation raises, the handler aborts before the
clearing assignment and the reference stays set. -/
theorem on_recording_stopped_clear_behavior (temp : String)
    (dir : Option String) (ok : Bool) :
    (dir = none →
        (on_recording_stopped temp dir ok).1 =
          [UAct.setBtnText "Record Video", UAct.promptDirectory none,
           UAct.clearThread] ∧
        (on_recording_stopped temp dir ok).2 = false) ∧
    (∀ d, dir = some d → ok = true →
        UAct.clearThread ∈ (on_recording_stopped temp dir ok).1 ∧
        (on_recording_stopped temp dir ok).2 = false) ∧
    (∀ d, dir = some d → ok = false →
        ((on_recording_stopped temp dir ok).1).count UAct.clearThread = 0 ∧
        (on_recording_stopped temp dir ok).2 = true) := by
  refine ⟨?_, ?_, ?_⟩
  · intro hd
    subst hd
    exact ⟨rfl, rfl⟩
  · intro d hd hok
    subst hd; subst hok
    simp [on_recording_stopped]
  · intro d hd hok
    subst hd; subst hok
    simp [on_recording_stopped, List.count_cons]

/-- Witness for C7: with the relocation succeeding the reference is
cleared. -/
theorem on_recording_stopped_clear_behavior_witness :
    UAct.clearThread ∈ (on_recording_stopped "Recorder_x.avi" (some "d") true).1 ∧
    (on_recording_stopped "Recorder_x.avi" (some "d") true).2 = false :=
  (on_recording_stopped_clear_behavior "Recorder_x.avi" (some "d") true).2.1
    "d" rfl rfl

/-- C9: the temporary video name fixed at session creation is
Recorder_ts.avi, a saved still image is capture_ts.jpg inside the chosen
directory, the encoder is opened with the XVID codec tag at 30 frames per
second and the capture dimensions queried at open time, and the stopped
signal of every run carries exactly the name fixed at creation. -/
theorem output_naming_and_encoder_params (ts dir : String) (frame : Frame)
    (ok : Bool) (capW capH : Nat) (reads : List (Option Frame)) :
    (VideoRecorder.init ts).temp_file_name = "Recorder_" ++ ts ++ ".avi" ∧
    (save_image (some frame) (some dir) ts).1 =
      [(pathJoin dir ("capture_" ++ ts ++ ".jpg"), frame)] ∧
    (runTrace (VideoRecorder.init ts) ok capW capH reads).head? =
      some (WAct.openWriter ok "XVID" 30 capW capH) ∧
    eventsOf (runTrace (VideoRecorder.init ts) ok capW capH reads) =
      [Event.recording_started,
       Event.recording_stopped ("Recorder_" ++ ts ++ ".avi")] := by
  refine ⟨rfl, rfl, rfl, ?_⟩
  rw [eventsOf_runTrace]
  rfl

/-- The drain iterations are all worker actions: no capture release occurs
among them. -/
theorem count_releaseCap_drainIters (cap : Capture)
    (l : List (Option Frame)) :
    (drainIters cap l).count CAct.releaseCap = 0 := by
  induction l with
  | nil => rfl
  | cons env rest ih =>
      cases h : cap.read env with
      | some f => simp [drainIters, h, List.count_cons, List.count_append, ih]
      | none => simp [drainIters, h, List.count_cons, ih]

/-- Draining through a released capture handle never produces a successful
read nor a write. -/
theorem drainIters_released_no_frames (c : Capture)
    (l : List (Option Frame)) (f : Frame) :
    (drainIters c.release l).count
        (CAct.workerAct (WAct.readFrame (some f))) = 0 ∧
    (drainIters c.release l).count
        (CAct.workerAct (WAct.writeFrame f)) = 0 := by
  induction l with
  | nil => exact ⟨rfl, rfl⟩
  | cons env rest ih =>
      have hr : (Capture.release c).read env = none := by
        simp [Capture.read, Capture.release]
      simp [drainIters, hr, List.count_cons, ih.1, ih.2]

/-- C3: closeEvent releases the capture handle exactly once (one releaseCap
action in its trace, and the release counter rises by exactly one), and when
a recording is in progress it clears the worker flag and blocks until run
has finished — the trace ends with the encoder sink released, then the
stopped signal, then the join returning, so the worker is at Idle (flag
clear, sink closed) before the call returns. -/
theorem closeEvent_releases_once_and_waits_idle (app : CameraApp)
    (envReads : List (Option Frame)) (inflight : Option (Option Frame)) :
    ((closeEvent app envReads inflight).2).count CAct.releaseCap = 1 ∧
    (closeEvent app envReads inflight).1.cap_release_count =
      app.cap_release_count + 1 ∧
    (closeEvent app envReads inflight).1.cap.released = true ∧
    (∀ r, app.video_thread = some r → r.is_recording = true →
        (∃ pre, (closeEvent app envReads inflight).2 =
            pre ++ [CAct.workerAct WAct.releaseWriter,
                    CAct.workerAct (WAct.emit
                      (Event.recording_stopped r.temp_file_name)),
                    CAct.joined]) ∧
        (closeEvent app envReads inflight).1.video_thread = some r.stop) := by
  cases hv : app.video_thread with
  | none =>
      refine ⟨?_, ?_, ?_, ?_⟩
      · simp [closeEvent, hv, List.count_cons]
      · simp [closeEvent, hv]
      · simp [closeEvent, hv, Capture.release]
      · intro r hr
        simp at hr
  | some r0 =>
      refine ⟨?_, ?_, ?_, ?_⟩
      · have hd := count_releaseCap_drainIters app.cap.release envReads
        cases hi : inflight with
        | none =>
            simp [closeEvent, hv, hi, List.count_cons, List.count_append, hd]
        | some env =>
            have hr : (Capture.release app.cap).read env = none := by
              simp [Capture.read, Capture.release]
            simp [closeEvent, hv, hi, hr, List.count_cons, List.count_append, hd]
      · simp [closeEvent, hv]
      · simp [closeEvent, hv, Capture.release]
      · intro r hr hrec
        cases hr
        refine ⟨?_, by simp [closeEvent, hv]⟩
        cases hi : inflight with
        | none =>
            exact ⟨CAct.releaseCap :: (drainIters app.cap.release envReads ++
                [CAct.workerStop, CAct.workerAct (WAct.checkFlag false)]),
              by simp [closeEvent, hv, hi]⟩
        | some env =>
            have hread : (Capture.release app.cap).read env = none := by
              simp [Capture.read, Capture.release]
            exact ⟨CAct.releaseCap :: (drainIters app.cap.release envReads ++
                [CAct.workerStop, CAct.workerAct (WAct.readFrame none),
                 CAct.workerAct (WAct.checkFlag false)]),
              by simp [closeEvent, hv, hi, hread]⟩

/-- Witness for C3 at a controller with an active recording, no further
device frames and no in-flight iteration. -/
theorem closeEvent_releases_once_and_waits_idle_witness :
    (∃ pre, (closeEvent ⟨⟨false, 640, 480⟩, 0, some ⟨true, "Recorder_t.avi"⟩⟩
          [] none).2 =
        pre ++ [CAct.workerAct WAct.releaseWriter,
                CAct.workerAct (WAct.emit
                  (Event.recording_stopped "Recorder_t.avi")),
                CAct.joined]) ∧
    (closeEvent ⟨⟨false, 640, 480⟩, 0, some ⟨true, "Recorder_t.avi"⟩⟩
        [] none).1.video_thread =
      some (VideoRecorder.stop ⟨true, "Recorder_t.avi"⟩) :=
  (closeEvent_releases_once_and_waits_idle
      ⟨⟨false, 640, 480⟩, 0, some ⟨true, "Recorder_t.avi"⟩⟩ [] none).2.2.2
    ⟨true, "Recorder_t.avi"⟩ rfl rfl

/-- C10: the capture handle is released at the very head of the closeEvent
trace — exactly once and before the stop signal, the drained loop
iterations and the join — and every read the still-running loop performs
thereafter goes through the released handle and fails, so no frame is read
successfully and none is written during shutdown. -/
theorem release_precedes_worker_cleanup (app : CameraApp)
    (envReads : List (Option Frame)) (inflight : Option (Option Frame)) :
    ((closeEvent app envReads inflight).2).head? = some CAct.releaseCap ∧
    ((closeEvent app envReads inflight).2).count CAct.releaseCap = 1 ∧
    (∀ f : Frame, ((closeEvent app envReads inflight).2).count
        (CAct.workerAct (WAct.readFrame (some f))) = 0) ∧
    (∀ f : Frame, ((closeEvent app envReads inflight).2).count
        (CAct.workerAct (WAct.writeFrame f)) = 0) := by
  cases hv : app.video_thread with
  | none =>
      refine ⟨by simp [closeEvent, hv], by simp [closeEvent, hv, List.count_cons],
        ?_, ?_⟩
      · intro f
        simp [closeEvent, hv, List.count_cons]
      · intro f
        simp [closeEvent, hv, List.count_cons]
  | some r0 =>
      have hrel := count_releaseCap_drainIters app.cap.release envReads
      refine ⟨by simp [closeEvent, hv], ?_, ?_, ?_⟩
      · cases hi : inflight with
        | none =>
            simp [closeEvent, hv, hi, List.count_cons, List.count_append, hrel]
        | some env =>
            have hr : (Capture.release app.cap).read env = none := by
              simp [Capture.read, Capture.release]
            simp [closeEvent, hv, hi, hr, List.count_cons, List.count_append,
              hrel]
      · intro f
        have hd := (drainIters_released_no_frames app.cap envReads f).1
        cases hi : inflight with
        | none =>
            simp [closeEvent, hv, hi, List.count_cons, List.count_append, hd]
        | some env =>
            have hr : (Capture.release app.cap).read env = none := by
              simp [Capture.read, Capture.release]
            simp [closeEvent, hv, hi, hr, List.count_cons, List.count_append, hd]
      · intro f
        have hd := (drainIters_released_no_frames app.cap envReads f).2
        cases hi : inflight with
        | none =>
            simp [closeEvent, hv, hi, List.count_cons, List.count_append, hd]
        | some env =>
            have hr : (Capture.release app.cap).read env = none := by
              simp [Capture.read, Capture.release]
            simp [closeEvent, hv, hi, hr, List.count_cons, List.count_append, hd]

/-- Every reachable state of the session machine satisfies the shape
invariant. -/
theorem uiReach_inv (s : UiSys) (h : UiReach s) : UiInv s := by
  induction h with
  | init temp => exact Or.inl ⟨rfl, rfl, rfl, rfl⟩
  | step s t hs st ih =>
      cases st with
      | setFlagStep hw =>
          rcases ih with ⟨h1, h2, h3, h4⟩ | ⟨h1, h2, h3⟩ | ⟨h1, hsub⟩ |
            ⟨h1, h2, hsub⟩
          · exact Or.inr (Or.inl ⟨rfl, h3, h4⟩)
          · rw [hw] at h1; simp at h1
          · rw [hw] at h1; simp at h1
          · rw [hw] at h1; simp at h1
      | emitStartedStep hw =>
          rcases ih with ⟨h1, h2, h3, h4⟩ | ⟨h1, h2, h3⟩ | ⟨h1, hsub⟩ |
            ⟨h1, h2, hsub⟩
          · rw [hw] at h1; simp at h1
          · exact Or.inr (Or.inr (Or.inl ⟨rfl, Or.inl ⟨h2, by simp [h3]⟩⟩))
          · rw [hw] at h1; simp at h1
          · rw [hw] at h1; simp at h1
      | uiStop hrec =>
          rcases ih with ⟨h1, h2, h3, h4⟩ | ⟨h1, h2, h3⟩ | ⟨h1, hsub⟩ |
            ⟨h1, h2, hsub⟩
          · rw [hrec] at h2; simp at h2
          · exact Or.inr (Or.inl ⟨h1, h2, h3⟩)
          · exact Or.inr (Or.inr (Or.inl ⟨h1, hsub⟩))
          · rw [hrec] at h2; simp at h2
      | finishStep hw hrec =>
          rcases ih with ⟨h1, h2, h3, h4⟩ | ⟨h1, h2, h3⟩ | ⟨h1, hsub⟩ |
            ⟨h1, h2, hsub⟩
          · rw [hw] at h1; simp at h1
          · rw [hw] at h1; simp at h1
          · rcases hsub with ⟨hb, hp⟩ | ⟨hb, hp⟩
            · exact Or.inr (Or.inr (Or.inr ⟨rfl, hrec,
                Or.inl ⟨hb, by simp [hp]⟩⟩))
            · exact Or.inr (Or.inr (Or.inr ⟨rfl, hrec,
                Or.inr (Or.inl ⟨hb, by simp [hp]⟩)⟩))
          · rw [hw] at h1; simp at h1
      | deliverStarted rest hp =>
          rcases ih with ⟨h1, h2, h3, h4⟩ | ⟨h1, h2, h3⟩ | ⟨h1, hsub⟩ |
            ⟨h1, h2, hsub⟩
          · rw [h4] at hp; simp at hp
          · rw [h3] at hp; simp at hp
          · rcases hsub with ⟨hb, hq⟩ | ⟨hb, hq⟩
            · rw [hq] at hp
              simp at hp
              subst hp
              exact Or.inr (Or.inr (Or.inl ⟨h1, Or.inr ⟨rfl, rfl⟩⟩))
            · rw [hq] at hp; simp at hp
          · rcases hsub with ⟨hb, hq⟩ | ⟨hb, hq⟩ | ⟨hb, hq⟩
            · rw [hq] at hp
              simp at hp
              subst hp
              exact Or.inr (Or.inr (Or.inr ⟨h1, h2, Or.inr (Or.inl ⟨rfl, rfl⟩)⟩))
            · rw [hq] at hp; simp at hp
            · rw [hq] at hp; simp at hp
      | deliverStopped p rest hp =>
          rcases ih with ⟨h1, h2, h3, h4⟩ | ⟨h1, h2, h3⟩ | ⟨h1, hsub⟩ |
            ⟨h1, h2, hsub⟩
          · rw [h4] at hp; simp at hp
          · rw [h3] at hp; simp at hp
          · rcases hsub with ⟨hb, hq⟩ | ⟨hb, hq⟩
            · rw [hq] at hp; simp at hp
            · rw [hq] at hp; simp at hp
          · rcases hsub with ⟨hb, hq⟩ | ⟨hb, hq⟩ | ⟨hb, hq⟩
            · rw [hq] at hp; simp at hp
            · rw [hq] at hp
              simp at hp
              rcases hp with ⟨hp1, hp2⟩
              subst hp2
              exact Or.inr (Or.inr (Or.inr ⟨h1, h2, Or.inr (Or.inr ⟨rfl, rfl⟩)⟩))
            · rw [hq] at hp; simp at hp

/-- C8 counterexample: immediately after the flag assignment at the head of
run and before the adjacent started emit — a reachable state of the
interleaved machine — the flag is set, the signal queue is empty, and the
button still shows the record label; so the label does not read the
stop-recording text in every state where the flag is set, not even in every
such state with no notification queued. -/
theorem label_drift_reachable_cx :
    UiReach ⟨WPC.flagSet, true, "Record Video", [], "Recorder_t.avi"⟩ ∧
    UiSys.pending ⟨WPC.flagSet, true, "Record Video", [],
      "Recorder_t.avi"⟩ = [] ∧
    (UiSys.btnText ⟨WPC.flagSet, true, "Record Video", [],
        "Recorder_t.avi"⟩ = "Stop Recording") = False := by
  refine ⟨?_, rfl, by simp⟩
  exact UiReach.step _ _ (UiReach.init "Recorder_t.avi")
    (UiStep.setFlagStep _ rfl)

/-- C8 as amended: the label is mutated only by the started and stopped
notification handlers, so over one session it tracks the flag only up to
the in-flight notifications. In every reachable settled state — no
notification queued, and the worker neither between the flag assignment and
the started emit nor stop-requested with the stopped signal not yet emitted
— the label reads the stop-recording text exactly when the flag is set;
in the in-flight windows the label may transiently lag the flag. -/
theorem label_matches_flag_when_settled (s : UiSys) (h : UiReach s)
    (hq : s.pending = [])
    (hw : s.wpc = WPC.notStarted ∨
      (s.wpc = WPC.running ∧ s.is_recording = true) ∨
      s.wpc = WPC.finished) :
    s.btnText = "Stop Recording" ↔ s.is_recording = true := by
  have hinv := uiReach_inv s h
  rcases hinv with ⟨h1, h2, h3, h4⟩ | ⟨h1, h2, h3⟩ | ⟨h1, hsub⟩ |
    ⟨h1, h2, hsub⟩
  · simp [h3, h2]
  · rcases hw with hw | ⟨hw, hflag⟩ | hw
    · rw [h1] at hw; simp at hw
    · rw [h1] at hw; simp at hw
    · rw [h1] at hw; simp at hw
  · rcases hsub with ⟨hb, hpend⟩ | ⟨hb, hpend⟩
    · rw [hpend] at hq; simp at hq
    · rcases hw with hw | ⟨hw, hflag⟩ | hw
      · rw [h1] at hw; simp at hw
      · simp [hb, hflag]
      · rw [h1] at hw; simp at hw
  · rcases hsub with ⟨hb, hpend⟩ | ⟨hb, hpend⟩ | ⟨hb, hpend⟩
    · rw [hpend] at hq; simp at hq
    · rw [hpend] at hq; simp at hq
    · simp [hb, h2]

/-- Witness for C8 as amended, at the initial (settled) state of a
session. -/
theorem label_matches_flag_when_settled_witness :
    UiSys.btnText ⟨WPC.notStarted, false, "Record Video", [],
        "Recorder_t.avi"⟩ = "Stop Recording" ↔
    UiSys.is_recording ⟨WPC.notStarted, false, "Record Video", [],
        "Recorder_t.avi"⟩ = true :=
  label_matches_flag_when_settled
    ⟨WPC.notStarted, false, "Record Video", [], "Recorder_t.avi"⟩
    (UiReach.init "Recorder_t.avi") rfl (Or.inl rfl)

end CameraPy
